import Mathlib

/-!
# Verification of the `techlab_whatsapp_gateway` dispatch and template core

Shallow embedding, in Lean 4, of the core operations of the
`techlab_whatsapp_gateway` repository:

* `WhatsAppGateway._clean_phone_number`  → `clean_phone_number`
* `WhatsAppGateway.send_whatsapp_async` / `_log_message`
                                         → `send_whatsapp_async`, `mkLogEntry`
* `WhatsAppExternalGateway._send_external_message` (parameter building)
                                         → `buildExternalParams`
* `WhatsAppTemplate._check_template_syntax` → `checkTemplateSyntax`
* `WhatsAppTemplate._render_template_content` → `renderTemplateContent`
* `WhatsAppTemplate._resolve_placeholder` → `resolve_placeholder`
* `WhatsAppGatewayLog.action_retry_send` → `action_retry_send`

Strings are modelled as Lean `String` (a structure over `List Char`);
Python `str.isdigit` is modelled by `Char.isDigit` (ASCII digits, which is
what the phone-number inputs of interest contain).  Python exceptions are
modelled with `Except`.
-/

/-! ## Python-side primitives shared by several operations -/

/-- Recursion core of `replaceAll`, structural in a fuel argument so that
concrete instances reduce by `rfl`; `fuel ≥` list length always holds at the
call sites (each step consumes fuel 1 and at least one character). -/
def replaceAllAux (pat rep : List Char) : Nat → List Char → List Char
  | _, [] => []
  | 0, l => l
  | fuel + 1, c :: rest =>
    if pat.isPrefixOf (c :: rest) ∧ pat ≠ [] then
      rep ++ replaceAllAux pat rep fuel (rest.drop (pat.length - 1))
    else
      c :: replaceAllAux pat rep fuel rest

/-- Python `str.replace pat rep` on lists of characters: replaces every
leftmost non-overlapping occurrence of `pat` by `rep`.  For the (never
exercised) empty pattern it returns the list unchanged. -/
def replaceAll (pat rep l : List Char) : List Char :=
  replaceAllAux pat rep l.length l

/-- The fuel of `replaceAllAux` is irrelevant once it covers the list. -/
lemma replaceAllAux_fuel (pat rep : List Char) :
    ∀ f g l, l.length ≤ f → l.length ≤ g →
      replaceAllAux pat rep f l = replaceAllAux pat rep g l := by
  intro f
  induction f with
  | zero =>
    intro g l hf hg
    have : l = [] := List.length_eq_zero.mp (Nat.le_zero.mp hf)
    subst this
    cases g <;> rfl
  | succ f ih =>
    intro g l hf hg
    cases l with
    | nil => cases g <;> rfl
    | cons c rest =>
      cases g with
      | zero => simp at hg
      | succ g =>
        simp only [replaceAllAux]
        by_cases hcond : pat.isPrefixOf (c :: rest) ∧ pat ≠ []
        · rw [if_pos hcond, if_pos hcond]
          congr 1
          apply ih
          · calc (rest.drop (pat.length - 1)).length ≤ rest.length :=
                  by simp
               _ ≤ f := by simpa using hf
          · calc (rest.drop (pat.length - 1)).length ≤ rest.length :=
                  by simp
               _ ≤ g := by simpa using hg
        · rw [if_neg hcond, if_neg hcond]
          congr 1
          apply ih
          · simpa using hf
          · simpa using hg

/-- Unfolding: empty list. -/
lemma replaceAll_nil (pat rep : List Char) : replaceAll pat rep [] = [] := rfl

/-- Unfolding: an occurrence of the (non-empty) pattern at the head is
replaced and scanning continues after it. -/
lemma replaceAll_head_occ (pat rep : List Char) (c : Char) (rest : List Char)
    (hocc : pat.isPrefixOf (c :: rest)) (hne : pat ≠ []) :
    replaceAll pat rep (c :: rest) =
      rep ++ replaceAll pat rep (rest.drop (pat.length - 1)) := by
  simp only [replaceAll, List.length_cons, replaceAllAux, if_pos (And.intro hocc hne)]
  congr 1
  apply replaceAllAux_fuel
  · simp
  · exact Nat.le_refl _

/-- Unfolding: no occurrence at the head, the head character is kept. -/
lemma replaceAll_head_skip (pat rep : List Char) (c : Char) (rest : List Char)
    (hocc : ¬ pat.isPrefixOf (c :: rest)) :
    replaceAll pat rep (c :: rest) = c :: replaceAll pat rep rest := by
  simp only [replaceAll, List.length_cons, replaceAllAux]
  rw [if_neg (by tauto)]

/-- Python `pat in s` (substring containment) on lists of characters. -/
def containsSub (pat : List Char) : List Char → Bool
  | [] => pat.isEmpty
  | c :: rest => pat.isPrefixOf (c :: rest) || containsSub pat rest

/-- `dropWhile` never lengthens a list (termination helper). -/
lemma dropWhile_length_le (p : Char → Bool) (l : List Char) :
    (l.dropWhile p).length ≤ l.length := by
  induction l with
  | nil => simp
  | cons c rest ih =>
    by_cases h : p c
    · rw [List.dropWhile_cons_of_pos h]
      exact Nat.le_succ_of_le ih
    · rw [List.dropWhile_cons_of_neg h]

/-- Recursion core of `splitOnDot` (structural in a fuel argument; the
fuel-exhausted fallback coincides with the `[]` branch and is unreachable
when `fuel ≥` list length). -/
def splitOnDotAux : Nat → List Char → List String
  | 0, l => [String.mk (l.takeWhile (· ≠ '.'))]
  | fuel + 1, l =>
    match l.dropWhile (· ≠ '.') with
    | [] => [String.mk (l.takeWhile (· ≠ '.'))]
    | _ :: rest => String.mk (l.takeWhile (· ≠ '.')) :: splitOnDotAux fuel rest

/-- Python `'.'.split` semantics on a list of characters:
`splitOnDot "a.b" = ["a", "b"]`, `splitOnDot "" = [""]`,
`splitOnDot "a." = ["a", ""]`. -/
def splitOnDot (l : List Char) : List String :=
  splitOnDotAux l.length l

/-! ## Phone normalizer: `WhatsAppGateway._clean_phone_number`

```python
def _clean_phone_number(self, phone_number):
    if not phone_number:
        raise UserError(_('Phone number is required'))
    cleaned = ''.join(filter(str.isdigit, phone_number))
    if not cleaned.startswith('39') and len(cleaned) == 10:
        cleaned = '39' + cleaned
    elif not cleaned.startswith('+'):
        cleaned = '+' + cleaned
    return cleaned
```
-/

/-- A Python exception value: its `str()` message, and its `status_code`
attribute when the exception object has one (`getattr(e, 'status_code', 500)`
is modelled by `Option.getD`). -/
structure PyError where
  msg : String
  status_code : Option Int
deriving Repr, DecidableEq

/-- `WhatsAppGateway._clean_phone_number`, translated line by line.
`.error` models the raised `UserError`. -/
def clean_phone_number (phone_number : String) : Except PyError String :=
  if phone_number = "" then
    .error ⟨"Phone number is required", none⟩
  else
    let cleaned := phone_number.data.filter Char.isDigit
    let cleaned :=
      if ¬ (['3', '9'].isPrefixOf cleaned) ∧ cleaned.length = 10 then
        '3' :: '9' :: cleaned
      else if ¬ (['+'].isPrefixOf cleaned) then
        '+' :: cleaned
      else
        cleaned
    .ok (String.mk cleaned)

/-! ## Theorems about the phone normalizer -/

/-- A nonempty string is not `""`. -/
lemma string_ne_empty_of_data_ne_nil {s : String} (h : s.data ≠ []) : s ≠ "" := by
  intro hs
  rw [hs] at h
  exact h rfl

/-- A list of digits never has `'+'` as first character. -/
lemma filter_digits_not_plus (l : List Char) :
    ¬ (['+'].isPrefixOf (l.filter Char.isDigit)) := by
  cases hf : l.filter Char.isDigit with
  | nil => simp [List.isPrefixOf]
  | cons c rest =>
    have hmem : c ∈ l.filter Char.isDigit := by
      rw [hf]; exact List.mem_cons_self ..
    have hd := List.of_mem_filter hmem
    simp only [List.isPrefixOf, List.isPrefixOf_nil_left, Bool.and_true]
    intro hc
    rw [beq_iff_eq] at hc
    rw [← hc] at hd
    simp [Char.isDigit] at hd

/-- Closed form of `_clean_phone_number` on non-empty input: the `'+'` branch
of the `elif` always fires when the 10-digit branch does not, because a
digit-only string never starts with `'+'`. -/
lemma clean_phone_number_eq (raw : String) (hraw : raw ≠ "") :
    clean_phone_number raw = .ok (String.mk
      (if ¬ (['3', '9'].isPrefixOf (raw.data.filter Char.isDigit)) ∧
          (raw.data.filter Char.isDigit).length = 10 then
        '3' :: '9' :: raw.data.filter Char.isDigit
      else
        '+' :: raw.data.filter Char.isDigit)) := by
  simp only [clean_phone_number, if_neg hraw]
  by_cases h39 : ¬ (['3', '9'].isPrefixOf (raw.data.filter Char.isDigit)) ∧
      (raw.data.filter Char.isDigit).length = 10
  · rw [if_pos h39, if_pos h39]
  · rw [if_neg h39, if_neg h39, if_pos]
    simpa using filter_digits_not_plus raw.data

/-- **C4 — counterexample.**  The claim says `normalize` fails with
`InvalidInput` whenever the input is empty *or contains no digits*.
The code only checks emptiness: `"abc"` is non-empty, contains no digit,
and `_clean_phone_number` returns `"+"` instead of raising. -/
theorem clean_phone_number_no_digit_counterexample :
    ("abc" : String) ≠ "" ∧
    (∀ c ∈ ("abc" : String).data, ¬ c.isDigit) ∧
    clean_phone_number "abc" = .ok "+" :=
  ⟨by decide, by decide, by rfl⟩

/-- **C4 — amended.**  `_clean_phone_number` raises `UserError` exactly when
the raw input is the empty string; a non-empty input with no digit characters
does not raise, and returns `"+"` (the empty digit string with `'+'`
prepended). -/
theorem clean_phone_number_error_iff (raw : String) :
    ((∃ e, clean_phone_number raw = .error e) ↔ raw = "") ∧
    (raw ≠ "" → (∀ c ∈ raw.data, ¬ c.isDigit) → clean_phone_number raw = .ok "+") := by
  constructor
  · constructor
    · intro ⟨e, he⟩
      by_contra hraw
      rw [clean_phone_number_eq raw hraw] at he
      simp at he
    · intro hraw
      subst hraw
      exact ⟨_, rfl⟩
  · intro hraw hnod
    have hfil : raw.data.filter Char.isDigit = [] := by
      rw [List.filter_eq_nil_iff]
      intro c hc
      simpa using hnod c hc
    rw [clean_phone_number_eq raw hraw, hfil]
    rfl

/-- Closed instance of `clean_phone_number_error_iff` at input `"x"`. -/
theorem clean_phone_number_error_iff_witness :
    clean_phone_number "x" = .ok "+" :=
  (clean_phone_number_error_iff "x").2 (by decide) (by decide)

/-- **C5 — confirmed.**  For every raw string containing at least one digit,
`_clean_phone_number` does not raise, and the result either starts with `'+'`
or is the stripped 10-digit string with the default country code `"39"`
prepended. -/
theorem clean_phone_number_total (raw : String) (h : ∃ c ∈ raw.data, c.isDigit) :
    ∃ s, clean_phone_number raw = .ok s ∧
      (s.data.head? = some '+' ∨
        (s.data = '3' :: '9' :: raw.data.filter Char.isDigit ∧
         (raw.data.filter Char.isDigit).length = 10)) := by
  obtain ⟨c, hc, hcd⟩ := h
  have hraw : raw ≠ "" := by
    apply string_ne_empty_of_data_ne_nil
    intro hnil
    rw [hnil] at hc
    exact absurd hc (List.not_mem_nil c)
  rw [clean_phone_number_eq raw hraw]
  by_cases h39 : ¬ (['3', '9'].isPrefixOf (raw.data.filter Char.isDigit)) ∧
      (raw.data.filter Char.isDigit).length = 10
  · exact ⟨_, rfl, .inr ⟨by rw [if_pos h39], h39.2⟩⟩
  · exact ⟨_, rfl, .inl (by rw [if_neg h39]; rfl)⟩

/-- Closed instance of `clean_phone_number_total` at input `"3331234567"`. -/
theorem clean_phone_number_total_witness :
    ∃ s, clean_phone_number "3331234567" = .ok s ∧
      (s.data.head? = some '+' ∨
        (s.data = '3' :: '9' :: ("3331234567" : String).data.filter Char.isDigit ∧
         (("3331234567" : String).data.filter Char.isDigit).length = 10)) :=
  clean_phone_number_total "3331234567" (by decide)

/-- **C9 — confirmed.**  Whenever `_clean_phone_number` returns, the result is
a string of decimal digits optionally preceded by exactly one leading `'+'`:
no separator, letter or pre-existing `'+'` of the raw input survives into the
digit portion. -/
theorem clean_phone_number_shape (raw s : String)
    (h : clean_phone_number raw = .ok s) :
    ∃ ds, (∀ c ∈ ds, c.isDigit) ∧ (s.data = '+' :: ds ∨ s.data = ds) := by
  by_cases hraw : raw = ""
  · rw [hraw] at h
    simp [clean_phone_number] at h
  · have hall : ∀ c ∈ raw.data.filter Char.isDigit, c.isDigit := by
      intro c hc
      exact List.of_mem_filter hc
    rw [clean_phone_number_eq raw hraw] at h
    have hs := Except.ok.inj h
    subst hs
    by_cases h39 : ¬ (['3', '9'].isPrefixOf (raw.data.filter Char.isDigit)) ∧
        (raw.data.filter Char.isDigit).length = 10
    · refine ⟨'3' :: '9' :: raw.data.filter Char.isDigit, ?_, .inr (by rw [if_pos h39])⟩
      intro c hc
      rw [List.mem_cons] at hc
      rcases hc with rfl | hc
      · decide
      rw [List.mem_cons] at hc
      rcases hc with rfl | hc
      · decide
      · exact hall c hc
    · exact ⟨raw.data.filter Char.isDigit, hall, .inl (by rw [if_neg h39])⟩

/-- Closed instance of `clean_phone_number_shape` on input `"3331234567"`. -/
theorem clean_phone_number_shape_witness :
    ∃ ds, (∀ c ∈ ds, c.isDigit) ∧
      (("393331234567" : String).data = '+' :: ds ∨
       ("393331234567" : String).data = ds) :=
  clean_phone_number_shape "3331234567" "393331234567" (by rfl)

/-- **C10 — confirmed.**  When the stripped digits have length 10 and already
start with the default country code `"39"`, the code does not prepend the
country code again: it only prepends `'+'`. -/
theorem clean_phone_number_keeps_39 (raw : String)
    (h10 : (raw.data.filter Char.isDigit).length = 10)
    (h39 : ['3', '9'].isPrefixOf (raw.data.filter Char.isDigit)) :
    clean_phone_number raw = .ok (String.mk ('+' :: raw.data.filter Char.isDigit)) := by
  have hraw : raw ≠ "" := by
    apply string_ne_empty_of_data_ne_nil
    intro hnil
    rw [hnil] at h10
    simp at h10
  rw [clean_phone_number_eq raw hraw, if_neg (by simp [h39])]

/-- Closed instance of `clean_phone_number_keeps_39` at `"3912345678"`:
the result is `"+3912345678"`. -/
theorem clean_phone_number_keeps_39_witness :
    clean_phone_number "3912345678" = .ok "+3912345678" := by
  have h := clean_phone_number_keeps_39 "3912345678" (by decide) (by decide)
  rw [h]
  rfl

/-! ## Dispatcher: `WhatsAppGateway.send_whatsapp_async` and `_log_message`

```python
@job(channel='root.whatsapp')
def send_whatsapp_async(self, message, phone_number, model=None, res_id=None, template_id=None):
    try:
        phone_number = self._clean_phone_number(phone_number)
        if self.type == 'external_rest':
            ...; response = gateway._send_external_message(message, phone_number)
        elif self.type == 'meta_cloud_api':
            ...; response = gateway._send_meta_message(message, phone_number)
        else:
            raise UserError(...)
        self._log_message(message, phone_number, 'success',
                          response.get('status_code', 200),
                          response.get('response_body', ''), model, res_id)
        if model and res_id: self._write_to_chatter(...)
        return True
    except Exception as e:
        self._log_message(message, phone_number, 'error',
                          getattr(e, 'status_code', 500), str(e), model, res_id)
        if model and res_id: self._write_to_chatter(...)
        raise
```

The two provider `send` operations perform network I/O; they are modelled by
an abstract function `send : GatewayType → String → String → Except PyError
Response` passed to the dispatcher (its `Except.error` models the raised
exception).  `_write_to_chatter` swallows all of its own exceptions and
touches no log state, so it is not modelled.  `type` is the model's
two-valued `Selection` field, so the `else: raise` branch is unreachable and
is not part of the embedding.
-/

/-- The gateway `type` selection field. -/
inductive GatewayType where
  | external_rest
  | meta_cloud_api
deriving Repr, DecidableEq

/-- The dictionary returned by `_send_external_message` / `_send_meta_message`;
`send_whatsapp_async` reads it with `response.get('status_code', 200)` and
`response.get('response_body', '')`, modelled with `Option.getD`. -/
structure Response where
  status_code : Option Int
  response_body : Option String
deriving Repr, DecidableEq

/-- One row of `whatsapp.gateway.log` as created by `_log_message`
(`timestamp` has `default=fields.Datetime.now`, passed in as `now`). -/
structure LogEntry where
  gateway_id : Nat
  gwtype : GatewayType
  message : String
  phone_number : String
  status : String
  response_code : String
  response_body : String
  res_model : Option String
  res_id : Option Int
  timestamp : Nat
deriving Repr, DecidableEq

/-- `WhatsAppGateway._log_message`: one `create` on `whatsapp.gateway.log`
(`str(response_code)` is `toString`). -/
def mkLogEntry (gateway_id : Nat) (gwtype : GatewayType)
    (message phone_number status : String) (response_code : Int)
    (response_body : String) (res_model : Option String) (res_id : Option Int)
    (now : Nat) : LogEntry :=
  { gateway_id := gateway_id
    gwtype := gwtype
    message := message
    phone_number := phone_number
    status := status
    response_code := toString response_code
    response_body := response_body
    res_model := res_model
    res_id := res_id
    timestamp := now }

/-- `WhatsAppGateway.send_whatsapp_async`, as a function from the pre-call
log table to the job result and the post-call log table (a `create` prepends
the new row).  `send` abstracts the provider HTTP call of the selected
gateway variant. -/
def send_whatsapp_async (gateway_id : Nat) (gwtype : GatewayType)
    (send : GatewayType → String → String → Except PyError Response)
    (message phone_number : String)
    (res_model : Option String) (res_id : Option Int) (now : Nat)
    (log : List LogEntry) : Except PyError Bool × List LogEntry :=
  match clean_phone_number phone_number with
  | .error e =>
    (.error e,
      mkLogEntry gateway_id gwtype message phone_number "error"
        (e.status_code.getD 500) e.msg res_model res_id now :: log)
  | .ok cleaned =>
    match send gwtype message cleaned with
    | .ok response =>
      (.ok true,
        mkLogEntry gateway_id gwtype message cleaned "success"
          (response.status_code.getD 200) (response.response_body.getD "")
          res_model res_id now :: log)
    | .error e =>
      (.error e,
        mkLogEntry gateway_id gwtype message cleaned "error"
          (e.status_code.getD 500) e.msg res_model res_id now :: log)

/-- **C1 — confirmed.**  Every dispatch attempt, whatever the outcome of
phone cleaning and of the provider send, creates exactly one new `LogEntry`;
its status is `success` exactly on the success path and `error` on every
failure path; the entry carries the response code and body on success, the
error string and the synthetic code `getattr(e, 'status_code', 500)` on
failure, and the timestamp. -/
theorem send_whatsapp_async_logs_once (gateway_id : Nat) (gwtype : GatewayType)
    (send : GatewayType → String → String → Except PyError Response)
    (message phone_number : String)
    (res_model : Option String) (res_id : Option Int) (now : Nat)
    (log : List LogEntry) :
    ∃ entry,
      (send_whatsapp_async gateway_id gwtype send message phone_number
          res_model res_id now log).2 = entry :: log ∧
      entry.timestamp = now ∧
      (entry.status = "success" ∨ entry.status = "error") ∧
      ((send_whatsapp_async gateway_id gwtype send message phone_number
          res_model res_id now log).1 = .ok true ↔ entry.status = "success") ∧
      (∀ e, (send_whatsapp_async gateway_id gwtype send message phone_number
          res_model res_id now log).1 = .error e →
        entry.status = "error" ∧ entry.response_body = e.msg ∧
        entry.response_code = toString (e.status_code.getD 500)) ∧
      (∀ cleaned response, clean_phone_number phone_number = .ok cleaned →
        send gwtype message cleaned = .ok response →
        entry.status = "success" ∧ entry.phone_number = cleaned ∧
        entry.response_code = toString (response.status_code.getD 200) ∧
        entry.response_body = response.response_body.getD "") := by
  match hclean : clean_phone_number phone_number with
  | .error e =>
    refine ⟨mkLogEntry gateway_id gwtype message phone_number "error"
        (e.status_code.getD 500) e.msg res_model res_id now,
      by simp [send_whatsapp_async, hclean], rfl, .inr rfl, ?_, ?_, ?_⟩
    · simp [send_whatsapp_async, hclean, mkLogEntry]
    · intro e' he'
      simp only [send_whatsapp_async, hclean, Except.error.injEq] at he'
      subst he'
      exact ⟨rfl, rfl, rfl⟩
    · intro cleaned response hcl
      exact absurd hcl (by simp)
  | .ok cleaned =>
    match hsend : send gwtype message cleaned with
    | .ok response =>
      refine ⟨mkLogEntry gateway_id gwtype message cleaned "success"
          (response.status_code.getD 200) (response.response_body.getD "")
          res_model res_id now,
        by simp [send_whatsapp_async, hclean, hsend], rfl, .inl rfl, ?_, ?_, ?_⟩
      · simp [send_whatsapp_async, hclean, hsend, mkLogEntry]
      · intro e' he'
        simp [send_whatsapp_async, hclean, hsend] at he'
      · intro cleaned' response' hcl hs
        have hc : cleaned = cleaned' := Except.ok.inj hcl
        subst hc
        rw [hsend] at hs
        have hr : response = response' := Except.ok.inj hs
        subst hr
        exact ⟨rfl, rfl, rfl, rfl⟩
    | .error e =>
      refine ⟨mkLogEntry gateway_id gwtype message cleaned "error"
          (e.status_code.getD 500) e.msg res_model res_id now,
        by simp [send_whatsapp_async, hclean, hsend], rfl, .inr rfl, ?_, ?_, ?_⟩
      · simp [send_whatsapp_async, hclean, hsend, mkLogEntry]
      · intro e' he'
        simp only [send_whatsapp_async, hclean, hsend, Except.error.injEq] at he'
        subst he'
        exact ⟨rfl, rfl, rfl⟩
      · intro cleaned' response' hcl hs
        have hc : cleaned = cleaned' := Except.ok.inj hcl
        subst hc
        rw [hsend] at hs
        exact absurd hs (by simp)

/-- Closed instance of `send_whatsapp_async_logs_once`: a failing provider
send on an empty starting log. -/
theorem send_whatsapp_async_logs_once_witness :
    ∃ entry,
      (send_whatsapp_async 1 .external_rest
          (fun _ _ _ => .error ⟨"boom", some 404⟩) "Hello" "3331234567"
          none none 7 []).2 = entry :: [] ∧
      entry.timestamp = 7 ∧
      (entry.status = "success" ∨ entry.status = "error") ∧
      ((send_whatsapp_async 1 .external_rest
          (fun _ _ _ => .error ⟨"boom", some 404⟩) "Hello" "3331234567"
          none none 7 []).1 = .ok true ↔ entry.status = "success") ∧
      (∀ e, (send_whatsapp_async 1 .external_rest
          (fun _ _ _ => .error ⟨"boom", some 404⟩) "Hello" "3331234567"
          none none 7 []).1 = .error e →
        entry.status = "error" ∧ entry.response_body = e.msg ∧
        entry.response_code = toString (e.status_code.getD 500)) ∧
      (∀ cleaned response, clean_phone_number "3331234567" = .ok cleaned →
        (fun (_ : GatewayType) (_ _ : String) =>
            (.error ⟨"boom", some 404⟩ : Except PyError Response)) .external_rest
            "Hello" cleaned = .ok response →
        entry.status = "success" ∧ entry.phone_number = cleaned ∧
        entry.response_code = toString (response.status_code.getD 200) ∧
        entry.response_body = response.response_body.getD "") :=
  send_whatsapp_async_logs_once 1 .external_rest
    (fun _ _ _ => .error ⟨"boom", some 404⟩) "Hello" "3331234567" none none 7 []

/-! ## Log store retry: `WhatsAppGatewayLog.action_retry_send`

```python
def action_retry_send(self):
    if self.status == 'success':
        return
    gateway = self.gateway_id
    if gateway and gateway.active:
        gateway.with_delay().send_whatsapp_async(
            self.message, self.phone_number, self.res_model, self.res_id)
        return {... 'message': _('Message queued for retry'), 'type': 'success' ...}
    else:
        return {... 'message': _('Gateway is not active or does not exist'),
                'type': 'warning' ...}
```
-/

/-- The gateway record as seen by the retry action (`gateway and
gateway.active`); an absent/deleted gateway is `Option.none`. -/
structure GatewayRec where
  id : Nat
  active : Bool
deriving Repr, DecidableEq

/-- A job submitted by `with_delay().send_whatsapp_async(...)`: the four
arguments the retry action passes. -/
structure EnqueuedJob where
  gateway_id : Nat
  message : String
  phone_number : String
  res_model : Option String
  res_id : Option Int
deriving Repr, DecidableEq

/-- `WhatsAppGatewayLog.action_retry_send`: first component is the returned
client notification `(message, type)` (`none` models Python's bare
`return`), second the job enqueued on the gateway, if any. -/
def action_retry_send (entry : LogEntry) (gateway : Option GatewayRec) :
    Option (String × String) × Option EnqueuedJob :=
  if entry.status = "success" then
    (none, none)
  else
    match gateway with
    | some gw =>
      if gw.active then
        (some ("Message queued for retry", "success"),
         some ⟨gw.id, entry.message, entry.phone_number,
               entry.res_model, entry.res_id⟩)
      else
        (some ("Gateway is not active or does not exist", "warning"), none)
    | none =>
      (some ("Gateway is not active or does not exist", "warning"), none)

/-- A sample already-successful log entry. -/
def successEntry : LogEntry :=
  mkLogEntry 1 .external_rest "Hello" "+393331234567" "success" 200 "ok"
    none none 7

/-- **C8 — counterexample.**  The claim says retrying an entry whose status
is already Success is a no-op *accompanied by a user-visible warning*.  The
code takes the bare `return` branch: no notification of any kind is returned
(and nothing is enqueued). -/
theorem action_retry_send_success_counterexample :
    successEntry.status = "success" ∧
    action_retry_send successEntry (some ⟨1, true⟩) = (none, none) :=
  ⟨rfl, rfl⟩

/-- **C8 — amended.**  `action_retry_send` is a *silent* no-op (no
notification, nothing enqueued) when the entry's status is already
`success`; a no-op with a user-visible *warning* notification when the
gateway is absent or inactive; otherwise it enqueues exactly one new
asynchronous dispatch built from the entry's stored message, phone number
and source-record linkage, and returns a success notification. -/
theorem action_retry_send_cases (entry : LogEntry) (gateway : Option GatewayRec) :
    (entry.status = "success" →
      action_retry_send entry gateway = (none, none)) ∧
    (entry.status ≠ "success" →
      (gateway = none ∨ ∃ gw, gateway = some gw ∧ gw.active = false) →
      action_retry_send entry gateway =
        (some ("Gateway is not active or does not exist", "warning"), none)) ∧
    (entry.status ≠ "success" → ∀ gw, gateway = some gw → gw.active = true →
      action_retry_send entry gateway =
        (some ("Message queued for retry", "success"),
         some ⟨gw.id, entry.message, entry.phone_number,
               entry.res_model, entry.res_id⟩)) := by
  refine ⟨?_, ?_, ?_⟩
  · intro hs
    simp [action_retry_send, hs]
  · intro hs hgw
    rcases hgw with rfl | ⟨gw, rfl, hact⟩
    · simp [action_retry_send, hs]
    · simp [action_retry_send, hs, hact]
  · intro hs gw hgw hact
    subst hgw
    simp [action_retry_send, hs, hact]

/-- Closed instance of `action_retry_send_cases`: retrying an error entry on
an active gateway enqueues the stored message/phone/linkage. -/
theorem action_retry_send_cases_witness :
    action_retry_send
        (mkLogEntry 2 .meta_cloud_api "Hi" "+15551234567" "error" 500 "boom"
          (some "crm.lead") (some 42) 9)
        (some ⟨2, true⟩) =
      (some ("Message queued for retry", "success"),
       some ⟨2, "Hi", "+15551234567", some "crm.lead", some 42⟩) :=
  (action_retry_send_cases
      (mkLogEntry 2 .meta_cloud_api "Hi" "+15551234567" "error" 500 "boom"
        (some "crm.lead") (some 42) 9)
      (some ⟨2, true⟩)).2.2 (by decide) ⟨2, true⟩ rfl rfl

/-! ## Template renderer: `WhatsAppTemplate`

```python
def _render_template_content(self, content, record):
    if not content:
        return ''
    rendered = content
    placeholders = re.findall(r'\$\{([^}]+)\}', content)
    for placeholder in placeholders:
        try:
            value = self._resolve_placeholder(placeholder, record)
            rendered = rendered.replace('${%s}' % placeholder,
                                        str(value) if value is not None else '')
        except Exception as e:
            rendered = rendered.replace('${%s}' % placeholder, f'[Error: {str(e)}]')
    return rendered
```
-/

/-- Recursion core of `findPlaceholders`, structural in a fuel argument
(`fuel ≥` list length at every call site; the fuel-exhausted branch is
unreachable).  A non-empty `dropWhile (· ≠ '}')` always starts with `'}'`,
so testing its emptiness is the regex's test for a closing brace, and its
tail is the scan position after the match. -/
def findPHAux : Nat → List Char → List String
  | _, [] => []
  | 0, _ => []
  | fuel + 1, c :: rest =>
    if c = '$' ∧ rest.head? = some '{' then
      if (rest.tail.dropWhile (· ≠ '}')).isEmpty ∨
          (rest.tail.takeWhile (· ≠ '}')).isEmpty then
        findPHAux fuel rest
      else
        String.mk (rest.tail.takeWhile (· ≠ '}')) ::
          findPHAux fuel (rest.tail.dropWhile (· ≠ '}')).tail
    else
      findPHAux fuel rest

/-- `re.findall(r'\$\{([^}]+)\}', content)`: captured groups of the leftmost
non-overlapping matches.  A match needs `'$'`, `'{'`, at least one
non-`'}'` character, then `'}'`; when no match starts at the current
position, scanning resumes one character later. -/
def findPlaceholders (l : List Char) : List String :=
  findPHAux l.length l

/-- A Python runtime value, as far as the renderer observes it: `None`, a
string, or an attribute-bearing record.  (`hasattr`/`getattr` on a record is
a field lookup; other values expose no template-relevant attributes.) -/
inductive PyVal where
  | vnone : PyVal
  | vstr : String → PyVal
  | vobj : List (String × PyVal) → PyVal

/-- `hasattr`/`getattr` combined: `some` when the attribute exists. -/
def pyGetattr : PyVal → String → Option PyVal
  | .vobj fs, name => fs.lookup name
  | _, _ => none

/-- Python `str(value)`.  For a record object the display form is not
observable by any claim; a fixed marker is used. -/
def pyStr : PyVal → String
  | .vnone => "None"
  | .vstr s => s
  | .vobj _ => "<record>"

/-- `str(value) if value is not None else ''` in `_render_template_content`. -/
def strOrEmpty : PyVal → String
  | .vnone => ""
  | v => pyStr v

/-- The `parts[0] == 'object'` branch of `_resolve_placeholder`: successive
`getattr`, raising `ValueError` on a missing field, and short-circuiting to
the empty string when an intermediate value is `None`. -/
def resolveObjectPath : PyVal → List String → Except String PyVal
  | cur, [] => .ok cur
  | cur, part :: rest =>
    match pyGetattr cur part with
    | some .vnone => .ok (.vstr "")
    | some v => resolveObjectPath v rest
    | none => .error ("Field " ++ part ++ " not found")

/-- The `user`/`company` branches of `_resolve_placeholder`: successive
`getattr` with no `None` short-circuit; `fieldKind` is the error prefix
(`"User field "` or `"Company field "`). -/
def resolveCtxPath (fieldKind : String) : PyVal → List String → Except String PyVal
  | cur, [] => .ok cur
  | cur, part :: rest =>
    match pyGetattr cur part with
    | some v => resolveCtxPath fieldKind v rest
    | none => .error (fieldKind ++ part ++ " not found")

/-- `WhatsAppTemplate._resolve_placeholder`.  `splitOnDot` never returns
`[]`, so the last branch is unreachable. -/
def resolve_placeholder (record user comp : PyVal) (ph : String) :
    Except String PyVal :=
  match splitOnDot ph.data with
  | root :: rest =>
    if root = "object" then resolveObjectPath record rest
    else if root = "user" then resolveCtxPath "User field " user rest
    else if root = "company" then resolveCtxPath "Company field " comp rest
    else .error ("Unknown placeholder root: " ++ root)
  | [] => .error "unreachable"

/-- `WhatsAppTemplate._render_template_content`, parametric in the
placeholder resolver (an `Except.error` models the caught exception, whose
`str` is spliced into the `[Error: ...]` marker). -/
def renderTemplateContent (resolve : String → Except String PyVal)
    (content : String) : String :=
  String.mk ((findPlaceholders content.data).foldl
    (fun rendered ph =>
      match resolve ph with
      | .ok v =>
        replaceAll ("$\x7b" ++ ph ++ "\x7d").data (strOrEmpty v).data rendered
      | .error e =>
        replaceAll ("$\x7b" ++ ph ++ "\x7d").data ("[Error: " ++ e ++ "]").data rendered)
    content.data)

/-! ## Template save-time validation: `WhatsAppTemplate._check_template_syntax`

```python
placeholders = re.findall(r'\$\{[^}]+\}', template.body)
for placeholder in placeholders:
    if not placeholder.startswith('${object.') \
            and not placeholder.startswith('${user.') \
            and not placeholder.startswith('${company.'):
        raise ValidationError(...)
```

`true` models "no `ValidationError` raised".
-/

/-- The per-placeholder test of `_check_template_syntax` on the full match
`'${' + inner + '}'`. -/
def allowedPlaceholder (ph : String) : Bool :=
  ("$\x7bobject.".data.isPrefixOf ("$\x7b" ++ ph ++ "\x7d").data) ||
  ("$\x7buser.".data.isPrefixOf ("$\x7b" ++ ph ++ "\x7d").data) ||
  ("$\x7bcompany.".data.isPrefixOf ("$\x7b" ++ ph ++ "\x7d").data)

/-- `WhatsAppTemplate._check_template_syntax` as a predicate: `true` iff the
constraint accepts the body. -/
def checkTemplateSyntax (body : String) : Bool :=
  (findPlaceholders body.data).all allowedPlaceholder

/-- `parts[0]` of `placeholder.split('.')`: the placeholder's root segment. -/
def rootSegment (ph : String) : String :=
  String.mk (ph.data.takeWhile (· ≠ '.'))

/-! ## Re-substitution behaviour of `_render_template_content` -/

/-- A record whose field `a` holds the literal string `"${object.b}"` and
whose field `b` holds `"B"`. -/
def cascadeRecord : PyVal :=
  .vobj [("a", .vstr "$\x7bobject.b\x7d"), ("b", .vstr "B")]

/-- **C3 — the code at the failing input.**  The loop
`rendered = rendered.replace('${%s}' % placeholder, ...)` is a naive
repeated global string replace: substituting `a ↦ "${object.b}"` first
produces text that the later `b`-substitution re-matches, so the render
of `"${object.a} ${object.b}"` is `"B B"` — the claim requires the literal
text `"${object.b}"` produced by the first substitution to stay verbatim,
i.e. `"${object.b} B"`. -/
theorem render_cascades_at_failing_input :
    renderTemplateContent
        (resolve_placeholder cascadeRecord (.vobj []) (.vobj []))
        "$\x7bobject.a\x7d $\x7bobject.b\x7d" = "B B" ∧
    resolve_placeholder cascadeRecord (.vobj []) (.vobj []) "object.a" =
      .ok (.vstr "$\x7bobject.b\x7d") ∧
    ("B B" : String) ≠ "$\x7bobject.b\x7d B" :=
  ⟨rfl, rfl, by decide⟩

/-! ## Save-time validation theorems -/

/-- `startswith(w + '.')` on `inner + '}'` holds exactly when the chunk of
`inner` before the first `'.'` is `w` and `inner` does contain a `'.'`
(for `w` free of dots). -/
lemma isPrefixOf_dot_iff (w : List Char) (hw : '.' ∉ w) :
    ∀ l : List Char,
      ((w ++ ['.']).isPrefixOf (l ++ ['}']) = true ↔
        (l.takeWhile (· ≠ '.') = w ∧ '.' ∈ l)) := by
  induction w with
  | nil =>
    intro l
    cases l with
    | nil => simp [List.isPrefixOf]
    | cons b l' =>
      by_cases hb : b = '.'
      · subst hb
        simp [List.isPrefixOf]
      · simp [List.isPrefixOf, hb, List.takeWhile_cons, Ne.symm hb]
  | cons a w' ih =>
    have ha : a ≠ '.' := fun h => hw (h ▸ List.mem_cons_self ..)
    have hw' : '.' ∉ w' := fun h => hw (List.mem_cons_of_mem _ h)
    intro l
    cases l with
    | nil =>
      constructor
      · intro h
        simp [List.isPrefixOf] at h
      · rintro ⟨-, h⟩
        exact absurd h (List.not_mem_nil '.')
    | cons b l' =>
      rw [List.cons_append, List.cons_append]
      by_cases hab : a = b
      · subst hab
        have hstep : ((a :: (w' ++ ['.'])).isPrefixOf (a :: (l' ++ ['}']))) =
            ((w' ++ ['.']).isPrefixOf (l' ++ ['}'])) := by
          simp [List.isPrefixOf]
        rw [hstep, ih hw' l']
        constructor
        · rintro ⟨htw, hdot⟩
          refine ⟨?_, List.mem_cons_of_mem _ hdot⟩
          rw [List.takeWhile_cons, if_pos (by simpa using ha), htw]
        · rintro ⟨htw, hdot⟩
          rw [List.takeWhile_cons, if_pos (by simpa using ha),
              List.cons.injEq] at htw
          refine ⟨htw.2, ?_⟩
          rcases List.mem_cons.mp hdot with h | h
          · exact absurd h.symm ha
          · exact h
      · constructor
        · intro h
          simp [List.isPrefixOf, hab] at h
        · rintro ⟨htw, -⟩
          by_cases hb : b = '.'
          · rw [List.takeWhile_cons, if_neg (by simpa using hb)] at htw
            exact absurd htw (by simp)
          · rw [List.takeWhile_cons, if_pos (by simpa using hb),
                List.cons.injEq] at htw
            exact absurd htw.1.symm hab

/-- `String.mk` against an abstract string, via η. -/
lemma string_mk_eq_iff (X : List Char) (s : String) :
    String.mk X = s ↔ X = s.data := by
  constructor
  · intro h
    rw [← h]
  · intro h
    rw [h]

/-- The per-placeholder check of `_check_template_syntax` holds exactly when
the root segment (`parts[0]` of the `'.'`-split) is one of the three known
roots *and* the placeholder actually contains a dot. -/
lemma allowedPlaceholder_iff (ph : String) :
    allowedPlaceholder ph = true ↔
      ((rootSegment ph = "object" ∨ rootSegment ph = "user" ∨
        rootSegment ph = "company") ∧ '.' ∈ ph.data) := by
  have hfull : ("$\x7b" ++ ph ++ "\x7d").data = '$' :: '{' :: (ph.data ++ ['}']) := by
    rw [String.data_append, String.data_append]
    simp
  have e1 : ("$\x7bobject." : String).data = '$' :: '{' :: ("object".data ++ ['.']) := rfl
  have e2 : ("$\x7buser." : String).data = '$' :: '{' :: ("user".data ++ ['.']) := rfl
  have e3 : ("$\x7bcompany." : String).data = '$' :: '{' :: ("company".data ++ ['.']) := rfl
  have hstep : ∀ x y : List Char,
      (('$' :: '{' :: x).isPrefixOf ('$' :: '{' :: y)) = x.isPrefixOf y := by
    intro x y
    simp [List.isPrefixOf]
  unfold allowedPlaceholder rootSegment
  rw [hfull, e1, e2, e3, hstep, hstep, hstep,
      Bool.or_eq_true, Bool.or_eq_true,
      isPrefixOf_dot_iff "object".data (by decide) ph.data,
      isPrefixOf_dot_iff "user".data (by decide) ph.data,
      isPrefixOf_dot_iff "company".data (by decide) ph.data,
      string_mk_eq_iff, string_mk_eq_iff, string_mk_eq_iff]
  tauto

/-- **C6 — counterexample.**  Every placeholder of the body `"${object}"`
has root segment `object` (an allowed root), yet `_check_template_syntax`
rejects the body, because its check demands the root *followed by a dot*
(`'${object.'`). -/
theorem checkTemplateSyntax_root_counterexample :
    (∀ ph ∈ findPlaceholders ("$\x7bobject\x7d" : String).data,
      rootSegment ph = "object" ∨ rootSegment ph = "user" ∨
      rootSegment ph = "company") ∧
    checkTemplateSyntax "$\x7bobject\x7d" = false :=
  ⟨by decide, by rfl⟩

/-- **C6 — amended.**  Save-time validation succeeds exactly for the bodies
each of whose placeholders has root segment `object`, `user` or `company`
*followed by a dot*; a placeholder with any other root segment, or with an
allowed root not followed by a dot, is rejected. -/
theorem checkTemplateSyntax_iff (body : String) :
    checkTemplateSyntax body = true ↔
      ∀ ph ∈ findPlaceholders body.data,
        ((rootSegment ph = "object" ∨ rootSegment ph = "user" ∨
          rootSegment ph = "company") ∧ '.' ∈ ph.data) := by
  unfold checkTemplateSyntax
  rw [List.all_eq_true]
  exact forall_congr' fun ph => forall_congr' fun _ => allowedPlaceholder_iff ph

/-- Closed instance of `checkTemplateSyntax_iff`: a body with the three
dotted roots is accepted. -/
theorem checkTemplateSyntax_iff_witness :
    checkTemplateSyntax "Hi $\x7bobject.name\x7d $\x7buser.name\x7d $\x7bcompany.name\x7d" = true :=
  (checkTemplateSyntax_iff "Hi $\x7bobject.name\x7d $\x7buser.name\x7d $\x7bcompany.name\x7d").mpr
    (by decide)

/-! ## Span behaviour of the renderer (infrastructure for the
occurrence-order / error-isolation property) -/

/-- `'${' + p + '}'` at the character level. -/
lemma data_wrap (p : String) :
    ("$\x7b" ++ p ++ "\x7d").data = '$' :: '{' :: (p.data ++ ['}']) := by
  rw [String.data_append, String.data_append]
  simp

/-- Head mismatch kills `isPrefixOf`. -/
lemma isPrefixOf_cons_neg (a : Char) (as : List Char) (b : Char)
    (bs : List Char) (h : a ≠ b) :
    ((a :: as).isPrefixOf (b :: bs)) = false := by
  simp [List.isPrefixOf, h]

/-- A `'$'`-headed pattern never fires inside a `'$'`-free list. -/
lemma replaceAll_no_dollar (pt rep l : List Char) (hl : '$' ∉ l) :
    replaceAll ('$' :: pt) rep l = l := by
  induction l with
  | nil => rfl
  | cons c rest ih =>
    have hc : '$' ≠ c := fun h => hl (h ▸ List.mem_cons_self ..)
    rw [replaceAll_head_skip _ _ _ _ (by simp [isPrefixOf_cons_neg _ _ _ _ hc]),
        ih (fun h => hl (List.mem_cons_of_mem _ h))]

/-- A `'$'`-free portion passes through `replaceAll` unchanged. -/
lemma replaceAll_append_pass (pt rep A r : List Char) (hA : '$' ∉ A) :
    replaceAll ('$' :: pt) rep (A ++ r) = A ++ replaceAll ('$' :: pt) rep r := by
  induction A with
  | nil => rfl
  | cons c A' ih =>
    have hc : '$' ≠ c := fun h => hA (h ▸ List.mem_cons_self ..)
    rw [List.cons_append,
        replaceAll_head_skip _ _ _ _ (by simp [isPrefixOf_cons_neg _ _ _ _ hc]),
        ih (fun h => hA (List.mem_cons_of_mem _ h)),
        List.cons_append]

/-- An occurrence of the pattern itself is replaced. -/
lemma replaceAll_occ (pat rep r : List Char) (hne : pat ≠ []) :
    replaceAll pat rep (pat ++ r) = rep ++ replaceAll pat rep r := by
  match pat, hne with
  | c :: pt, _ =>
    rw [List.cons_append,
        replaceAll_head_occ _ _ _ _
          (by rw [← List.cons_append, List.isPrefixOf_iff_prefix]
              exact List.prefix_append _ _)
          (by simp)]
    congr 2
    simp

/-- `'${p}'` is not a prefix of `'${q}' ++ r` when `p ≠ q` (neither
containing `'}'`): textual placeholder tokens of distinct placeholders
never overlap at the same position. -/
lemma not_isPrefixOf_brace (p : List Char) (hp : '}' ∉ p) :
    ∀ q r, '}' ∉ q → p ≠ q →
      ¬ ((p ++ ['}']).isPrefixOf (q ++ '}' :: r) = true) := by
  induction p with
  | nil =>
    intro q r hq hne
    cases q with
    | nil => exact absurd rfl hne
    | cons b q' =>
      have hb : '}' ≠ b := fun h => hq (h ▸ List.mem_cons_self ..)
      rw [List.nil_append, List.cons_append]
      simp [isPrefixOf_cons_neg _ _ _ _ hb]
  | cons a p' ih =>
    intro q r hq hne
    have ha : a ≠ '}' := fun h => hp (h ▸ List.mem_cons_self ..)
    have hp' : '}' ∉ p' := fun h => hp (List.mem_cons_of_mem _ h)
    cases q with
    | nil =>
      rw [List.cons_append, List.nil_append]
      simp [isPrefixOf_cons_neg _ _ _ _ ha]
    | cons b q' =>
      have hq' : '}' ∉ q' := fun h => hq (List.mem_cons_of_mem _ h)
      by_cases hab : a = b
      · subst hab
        have hne' : p' ≠ q' := fun h => hne (h ▸ rfl)
        rw [List.cons_append, List.cons_append]
        intro h
        apply ih hp' q' r hq' hne'
        simpa [List.isPrefixOf] using h
      · rw [List.cons_append, List.cons_append]
        simp [isPrefixOf_cons_neg _ _ _ _ hab]

/-- `takeWhile (· ≠ '}')` stops exactly at the closing brace. -/
lemma takeWhile_brace (inner r : List Char) (h : '}' ∉ inner) :
    ((inner ++ '}' :: r).takeWhile (· ≠ '}')) = inner := by
  induction inner with
  | nil =>
    rw [List.nil_append, List.takeWhile_cons, if_neg (by simp)]
  | cons a t ih =>
    have ha : a ≠ '}' := fun hh => h (hh ▸ List.mem_cons_self ..)
    rw [List.cons_append, List.takeWhile_cons, if_pos (by simpa using ha),
        ih (fun hh => h (List.mem_cons_of_mem _ hh))]

/-- `dropWhile (· ≠ '}')` lands exactly on the closing brace. -/
lemma dropWhile_brace (inner r : List Char) (h : '}' ∉ inner) :
    ((inner ++ '}' :: r).dropWhile (· ≠ '}')) = '}' :: r := by
  induction inner with
  | nil =>
    rw [List.nil_append, List.dropWhile_cons, if_neg (by simp)]
  | cons a t ih =>
    have ha : a ≠ '}' := fun hh => h (hh ▸ List.mem_cons_self ..)
    rw [List.cons_append, List.dropWhile_cons, if_pos (by simpa using ha),
        ih (fun hh => h (List.mem_cons_of_mem _ hh))]

/-- The fuel of `findPHAux` is irrelevant once it covers the list. -/
lemma findPHAux_fuel :
    ∀ f g l, l.length ≤ f → l.length ≤ g → findPHAux f l = findPHAux g l := by
  intro f
  induction f with
  | zero =>
    intro g l hf hg
    have : l = [] := List.length_eq_zero.mp (Nat.le_zero.mp hf)
    subst this
    cases g <;> rfl
  | succ f ih =>
    intro g l hf hg
    cases l with
    | nil => cases g <;> rfl
    | cons c rest =>
      cases g with
      | zero => simp at hg
      | succ g =>
        have hrest_f : rest.length ≤ f := by simpa using hf
        have hrest_g : rest.length ≤ g := by simpa using hg
        simp only [findPHAux]
        by_cases h1 : c = '$' ∧ rest.head? = some '{'
        · rw [if_pos h1, if_pos h1]
          by_cases h2 : (rest.tail.dropWhile (· ≠ '}')).isEmpty ∨
              (rest.tail.takeWhile (· ≠ '}')).isEmpty
          · rw [if_pos h2, if_pos h2, ih g rest hrest_f hrest_g]
          · rw [if_neg h2, if_neg h2]
            have hb : ((rest.tail.dropWhile (· ≠ '}')).tail).length ≤ rest.length := by
              have h3 := dropWhile_length_le (fun x => decide (x ≠ '}')) rest.tail
              have h4 : rest.tail.length ≤ rest.length := by
                cases rest <;> simp
              have h5 : ((rest.tail.dropWhile (· ≠ '}')).tail).length ≤
                  (rest.tail.dropWhile (· ≠ '}')).length := by
                cases rest.tail.dropWhile (· ≠ '}') <;> simp
              omega
            rw [ih g _ (le_trans hb hrest_f) (le_trans hb hrest_g)]
        · rw [if_neg h1, if_neg h1, ih g rest hrest_f hrest_g]

/-- Scanning skips a position where no placeholder match starts. -/
lemma findPH_skip (c : Char) (rest : List Char)
    (hc : ¬ (c = '$' ∧ rest.head? = some '{')) :
    findPlaceholders (c :: rest) = findPlaceholders rest := by
  simp only [findPlaceholders, List.length_cons, findPHAux, if_neg hc]

/-- Scanning passes over a `'$'`-free portion. -/
lemma findPH_pass (A r : List Char) (hA : '$' ∉ A) :
    findPlaceholders (A ++ r) = findPlaceholders r := by
  induction A with
  | nil => rfl
  | cons c A' ih =>
    have hc : c ≠ '$' := fun h => hA (h ▸ List.mem_cons_self ..)
    rw [List.cons_append, findPH_skip c _ (by tauto),
        ih (fun h => hA (List.mem_cons_of_mem _ h))]

/-- A `'$'`-free body has no placeholders. -/
lemma findPH_empty (l : List Char) (hl : '$' ∉ l) :
    findPlaceholders l = [] := by
  have := findPH_pass l [] hl
  rwa [List.append_nil] at this

/-- Scanning at a well-formed placeholder token captures its inner text and
resumes after the closing brace. -/
lemma findPH_token (inner r : List Char) (hne : inner ≠ []) (hbr : '}' ∉ inner) :
    findPlaceholders ('$' :: '{' :: (inner ++ '}' :: r)) =
      String.mk inner :: findPlaceholders r := by
  simp only [findPlaceholders, List.length_cons, findPHAux]
  rw [if_pos (by simp)]
  simp only [List.tail_cons]
  rw [dropWhile_brace inner r hbr, takeWhile_brace inner r hbr,
      if_neg (by simp [hne])]
  simp only [List.tail_cons]
  congr 1
  apply findPHAux_fuel
  · simp [List.length_append]
    omega
  · exact Nat.le_refl _

/-- A placeholder token other than the pattern's own placeholder passes
through `replaceAll` unchanged. -/
lemma replaceAll_other_token (pt rep qd Cd : List Char)
    (hqd : '$' ∉ qd) (hCd : '$' ∉ Cd)
    (hnp : ¬ (('$' :: pt).isPrefixOf ('$' :: '{' :: (qd ++ '}' :: Cd)) = true)) :
    replaceAll ('$' :: pt) rep ('$' :: '{' :: (qd ++ '}' :: Cd)) =
      '$' :: '{' :: (qd ++ '}' :: Cd) := by
  rw [replaceAll_head_skip _ _ _ _ hnp]
  congr 1
  apply replaceAll_no_dollar
  intro hmem
  rcases List.mem_cons.mp hmem with h | h
  · exact absurd h (by decide)
  rcases List.mem_append.mp h with h | h
  · exact hqd h
  rcases List.mem_cons.mp h with h | h
  · exact absurd h (by decide)
  · exact hCd h

/-- **C7 — confirmed.**  For a body with one resolvable and one unresolvable
placeholder (in that occurrence order, with ordinary surrounding text and an
ordinary resolved value — no `'$'` in the fixed parts, no `'$'`/`'}'` inside
the placeholder names), `_render_template_content` substitutes the
resolvable placeholder with its value, replaces only the failing one
in-place with the `[Error: <message>]` marker, and returns the combined
result in a single pass over the placeholder list. -/
theorem render_isolates_failure
    (resolve : String → Except String PyVal)
    (A B C p q : String) (v : PyVal) (e : String)
    (hp0 : p ≠ "") (hq0 : q ≠ "")
    (hpb : '}' ∉ p.data)
    (hqd : '$' ∉ q.data) (hqb : '}' ∉ q.data)
    (hpq : p ≠ q)
    (hA : '$' ∉ A.data) (hB : '$' ∉ B.data) (hC : '$' ∉ C.data)
    (hv : '$' ∉ (strOrEmpty v).data)
    (hrp : resolve p = .ok v) (hrq : resolve q = .error e) :
    renderTemplateContent resolve
        (A ++ "$\x7b" ++ p ++ "\x7d" ++ B ++ "$\x7b" ++ q ++ "\x7d" ++ C) =
      A ++ strOrEmpty v ++ B ++ "[Error: " ++ e ++ "]" ++ C := by
  have hp0' : p.data ≠ [] := fun h =>
    hp0 ((string_mk_eq_iff p.data "").mpr (h.trans rfl))
  have hq0' : q.data ≠ [] := fun h =>
    hq0 ((string_mk_eq_iff q.data "").mpr (h.trans rfl))
  have hpq' : p.data ≠ q.data := fun h =>
    hpq ((string_mk_eq_iff p.data q).mpr h)
  have d1 : ("$\x7b" : String).data = ['$', '{'] := rfl
  have d2 : ("\x7d" : String).data = ['}'] := rfl
  have hcd : (A ++ "$\x7b" ++ p ++ "\x7d" ++ B ++ "$\x7b" ++ q ++ "\x7d" ++ C).data =
      A.data ++ ('$' :: '{' ::
        (p.data ++ '}' :: (B.data ++ ('$' :: '{' ::
          (q.data ++ '}' :: C.data))))) := by
    simp [String.data_append, d1, d2, List.append_assoc]
  have hmkp : String.mk p.data = p := rfl
  have hmkq : String.mk q.data = q := rfl
  have hfind : findPlaceholders
      (A ++ "$\x7b" ++ p ++ "\x7d" ++ B ++ "$\x7b" ++ q ++ "\x7d" ++ C).data = [p, q] := by
    rw [hcd, findPH_pass _ _ hA, findPH_token _ _ hp0' hpb,
        findPH_pass _ _ hB, findPH_token _ _ hq0' hqb, findPH_empty _ hC,
        hmkp, hmkq]
  have hnp : ¬ (('$' :: '{' :: (p.data ++ ['}'])).isPrefixOf
      ('$' :: '{' :: (q.data ++ '}' :: C.data)) = true) := by
    intro h
    have h' : ((p.data ++ ['}']).isPrefixOf (q.data ++ '}' :: C.data)) = true := by
      simpa [List.isPrefixOf] using h
    exact not_isPrefixOf_brace p.data hpb q.data C.data hqb hpq' h'
  have hinner : replaceAll ('$' :: '{' :: (p.data ++ ['}']))
      (strOrEmpty v).data
      (A.data ++ ('$' :: '{' ::
        (p.data ++ '}' :: (B.data ++ ('$' :: '{' ::
          (q.data ++ '}' :: C.data)))))) =
      A.data ++ ((strOrEmpty v).data ++ (B.data ++ ('$' :: '{' ::
        (q.data ++ '}' :: C.data)))) := by
    rw [replaceAll_append_pass _ _ _ _ hA]
    congr 1
    have hXp : ('$' :: '{' :: (p.data ++ ['}'])) ++
        (B.data ++ ('$' :: '{' :: (q.data ++ '}' :: C.data))) =
        '$' :: '{' :: (p.data ++ '}' :: (B.data ++ ('$' :: '{' ::
          (q.data ++ '}' :: C.data)))) := by
      simp [List.append_assoc]
    rw [← hXp, replaceAll_occ _ _ _ (by simp)]
    congr 1
    rw [replaceAll_append_pass _ _ _ _ hB]
    congr 1
    exact replaceAll_other_token _ _ _ _ hqd hC hnp
  have houter : replaceAll ('$' :: '{' :: (q.data ++ ['}']))
      ("[Error: " ++ e ++ "]").data
      (A.data ++ ((strOrEmpty v).data ++ (B.data ++ ('$' :: '{' ::
        (q.data ++ '}' :: C.data))))) =
      A.data ++ ((strOrEmpty v).data ++ (B.data ++
        (("[Error: " ++ e ++ "]").data ++ C.data))) := by
    rw [replaceAll_append_pass _ _ _ _ hA]
    congr 1
    rw [replaceAll_append_pass _ _ _ _ hv]
    congr 1
    rw [replaceAll_append_pass _ _ _ _ hB]
    congr 1
    have hXq : ('$' :: '{' :: (q.data ++ ['}'])) ++ C.data =
        '$' :: '{' :: (q.data ++ '}' :: C.data) := by
      simp [List.append_assoc]
    rw [← hXq, replaceAll_occ _ _ _ (by simp), replaceAll_no_dollar _ _ _ hC]
  simp only [renderTemplateContent, hfind, List.foldl_cons, List.foldl_nil,
    hrp, hrq]
  rw [data_wrap p, data_wrap q, hcd, hinner, houter, string_mk_eq_iff]
  simp [String.data_append, List.append_assoc]

/-- Closed instance of `render_isolates_failure`, through
`_resolve_placeholder` on a record with a `name` field and no `bad` field:
`"Hi ${object.name}, ref ${object.bad}"` renders to
`"Hi Ana, ref [Error: Field bad not found]"`. -/
theorem render_isolates_failure_witness :
    renderTemplateContent
        (resolve_placeholder (.vobj [("name", .vstr "Ana")]) (.vobj []) (.vobj []))
        ("Hi " ++ "$\x7b" ++ "object.name" ++ "\x7d" ++ ", ref " ++ "$\x7b" ++
          "object.bad" ++ "\x7d" ++ "") =
      "Hi " ++ strOrEmpty (.vstr "Ana") ++ ", ref " ++ "[Error: " ++
        "Field bad not found" ++ "]" ++ "" :=
  render_isolates_failure
    (resolve_placeholder (.vobj [("name", .vstr "Ana")]) (.vobj []) (.vobj []))
    "Hi " ", ref " "" "object.name" "object.bad" (.vstr "Ana")
    "Field bad not found"
    (by decide) (by decide) (by decide) (by decide) (by decide) (by decide)
    (by decide) (by decide) (by decide) (by decide) (by rfl) (by rfl)

/-! ## External REST gateway parameters:
`WhatsAppExternalGateway._send_external_message`

```python
params = {}
if self.params_template:
    template = json.loads(self.params_template)
    params_str = json.dumps(template)
    params_str = params_str.replace('{phone}', phone_number)
    params_str = params_str.replace('{message}', message)
    if self.api_key_value and '{api_key}' in params_str:
        params_str = params_str.replace('{api_key}', self.api_key_value)
    params = json.loads(params_str)
if self.recipient_param and phone_number:
    params[self.recipient_param] = phone_number
if self.message_param and message:
    params[self.message_param] = message
if self.api_key_param and self.api_key_value:
    params[self.api_key_param] = self.api_key_value
```

The parsed template is modelled as an insertion-ordered string→string
object (the shape of the default `{"to": "{phone}", "message": "{message}"}`);
`dumps` / textual `replace` / `loads` on it is per-entry `replace` applied to
both keys and values (the substituted values are assumed free of JSON
metacharacters, as phone numbers and plain messages are).  Falsy Odoo `Char`
fields (`False`/empty) are modelled as `""`; an absent/invalid
`params_template` as `none`.  The trailing HTTP call is outside the model.
-/

/-- Python `params[k] = v` on an insertion-ordered string map. -/
def setParam (params : List (String × String)) (k v : String) :
    List (String × String) :=
  if params.any (fun kv => kv.1 = k) then
    params.map (fun kv => if kv.1 = k then (k, v) else kv)
  else
    params ++ [(k, v)]

/-- The `dumps`/`replace`/`loads` block: `{phone}` then `{message}` are
substituted everywhere in the serialized template, then `{api_key}` when an
API key value is configured and the token occurs. -/
def substTemplate (tmpl : List (String × String))
    (phone_number message api_key_value : String) : List (String × String) :=
  let sub1 := fun (s : String) =>
    String.mk (replaceAll "\x7bmessage\x7d".data message.data
      (replaceAll "\x7bphone\x7d".data phone_number.data s.data))
  let t := tmpl.map (fun kv => (sub1 kv.1, sub1 kv.2))
  if api_key_value ≠ "" ∧
      t.any (fun kv => containsSub "\x7bapi_key\x7d".data kv.1.data ||
        containsSub "\x7bapi_key\x7d".data kv.2.data) then
    t.map (fun kv =>
      (String.mk (replaceAll "\x7bapi_key\x7d".data api_key_value.data kv.1.data),
       String.mk (replaceAll "\x7bapi_key\x7d".data api_key_value.data kv.2.data)))
  else
    t

/-- The parameter tree sent by `_send_external_message`: the substituted
template overlaid with the three configured single-key parameters. -/
def buildExternalParams (paramsTemplate : Option (List (String × String)))
    (recipient_param message_param api_key_param api_key_value
      message phone_number : String) : List (String × String) :=
  let params :=
    match paramsTemplate with
    | some t => substTemplate t phone_number message api_key_value
    | none => []
  let params :=
    if recipient_param ≠ "" ∧ phone_number ≠ "" then
      setParam params recipient_param phone_number
    else params
  let params :=
    if message_param ≠ "" ∧ message ≠ "" then
      setParam params message_param message
    else params
  let params :=
    if api_key_param ≠ "" ∧ api_key_value ≠ "" then
      setParam params api_key_param api_key_value
    else params
  params

/-- **C2 — counterexample.**  The claim says normalizing `"3331234567"`
yields `"+393331234567"`.  The 10-digit branch of `_clean_phone_number`
prepends only `"39"` and, being the `if` of an `if/elif`, skips the
`'+'`-prepending `elif`: the result is `"393331234567"`, with no `'+'`. -/
theorem external_scenario_counterexample :
    clean_phone_number "3331234567" = .ok "393331234567" ∧
    ("393331234567" : String) ≠ "+393331234567" :=
  ⟨by rfl, by decide⟩

/-- **C2 — amended.**  For phone `"3331234567"` and message `"Hello"`
through an ExternalRest gateway with
`paramsTemplate = {"to": "{phone}", "message": "{message}"}` (and the
default `to`/`message` parameter names), normalization yields
`"393331234567"` (no `'+'`), and the outgoing JSON parameter set is
`{"to": "393331234567", "message": "Hello"}`. -/
theorem external_scenario_amended :
    clean_phone_number "3331234567" = .ok "393331234567" ∧
    buildExternalParams (some [("to", "\x7bphone\x7d"), ("message", "\x7bmessage\x7d")])
        "to" "message" "" "" "Hello" "393331234567" =
      [("to", "393331234567"), ("message", "Hello")] :=
  ⟨by rfl, by rfl⟩
